import Mathlib

/-!  Shallow embedding of `astroNN.nn.losses.classification`
(src/astroNN/nn/losses/classification.py).

Rank-2 tensors are modelled as `List (List ℝ)` (rows = samples, last axis =
classes), scalars as real numbers, and elementwise TensorFlow operations as
`List.map` over `List.zip`.  The shape check that
`astronn_sigmoid_cross_entropy_with_logits` performs at graph-construction
time is modelled with `Except String`; TensorFlow operations whose
construction or evaluation necessarily raises (an `AttributeError` during
graph tracing, an out-of-range strided slice) are modelled with `Option`,
`none` standing for the raised error.  -/

namespace AstroNN

/-- Modelled from the spec: the missing-label sentinel `MAGIC_NUMBER` comes
from the astroNN package root (`from astroNN import MAGIC_NUMBER`), whose
source file is not among the provided sources; spec §6 gives its value as
`-9999.0`. -/
noncomputable def MAGIC_NUMBER : ℝ := -9999

/-- Model of `keras.backend.epsilon()`: the backend numerical fuzz factor,
whose default value is `1e-7`.  The library sources it from the framework
(classification.py line 9); it is not defined in this repository. -/
noncomputable def epsilon : ℝ := 1 / 10 ^ 7

/-- The entry of a rank-2 tensor at row `i`, column `j`, when both are in
range. -/
def entry? (m : List (List ℝ)) (i j : ℕ) : Option ℝ :=
  (m.get? i).bind fun row => row.get? j

/-- The static shape of a rank-2 tensor: the number of rows followed by each
row's length.  Two tensors have mergeable (equal, since all dimensions are
known) TensorFlow shapes exactly when their `tShape`s are equal. -/
def tShape (m : List (List ℝ)) : List ℕ :=
  m.length :: m.map List.length

/-- Elementwise body of `astronn_sigmoid_cross_entropy_with_logits`
(classification.py lines 38-46): the sign-split stable logistic loss.
Line 43's `magic_cond = (labels == MAGIC_NUMBER)` compares a TF 1.x Tensor
with `==`, which is Python reference equality rather than an elementwise
test, so it yields the plain scalar `False`; `array_ops.where` on line 44
then receives a scalar-false condition and returns its else branch — the
raw loss — whole.  The intended missing-label mask is therefore dead code
and no sentinel zeroing happens in this function (contrast lines 67 and
101, which use `tf.equal`). -/
noncomputable def logistic_loss_elem (labels logits : ℝ) : ℝ :=
  let zeros : ℝ := 0
  let relu_logits := if logits ≥ 0 then logits else zeros
  let neg_abs_logits := if logits ≥ 0 then -logits else logits
  relu_logits - logits * labels + Real.log (1 + Real.exp neg_abs_logits)

/-- `astronn_sigmoid_cross_entropy_with_logits` (classification.py lines
14-46).  The shape merge of line 33 succeeds exactly when the two static
shapes are equal; on failure the `ValueError` of lines 35-36 is raised.  Its
Python format string is `"... ({0!s} vs {0!s})"`, so the message renders the
logits shape twice and never uses the labels shape that is passed as the
second format argument. -/
noncomputable def astronn_sigmoid_cross_entropy_with_logits
    (labels logits : List (List ℝ)) : Except String (List (List ℝ)) :=
  if tShape labels = tShape logits then
    Except.ok ((labels.zip logits).map fun rows =>
      (rows.1.zip rows.2).map fun p => logistic_loss_elem p.1 p.2)
  else
    Except.error ("logits and labels must have the same shape ("
      ++ toString (tShape logits) ++ " vs " ++ toString (tShape logits) ++ ")")

/-- Model of `tf.nn.softmax_cross_entropy_with_logits_v2` (and of the `_v1`
fallback of line 78, which computes the same value): one row's loss is
`-Σᵢ labelsᵢ · log softmax(logits)ᵢ` with
`log softmax(logits)ᵢ = logitsᵢ - log Σⱼ exp logitsⱼ`. -/
noncomputable def softmax_cross_entropy_with_logits (labels logits : List ℝ) : ℝ :=
  -(((labels.zip logits).map fun p =>
      p.1 * (p.2 - Real.log ((logits.map Real.exp).sum))).sum)

/-- The missing-label replacement of classification.py line 67:
`tf.where(tf.equal(y_true, MAGIC_NUMBER), tf.zeros_like(y_true), y_true)`,
per element. -/
noncomputable def magic_mask_elem (v : ℝ) : ℝ :=
  if v = MAGIC_NUMBER then 0 else v

/-- `tf.clip_by_value t lo hi = min (max t lo) hi`, per element. -/
noncomputable def clip_by_value (x lo hi : ℝ) : ℝ :=
  min (max x lo) hi

/-- Line 69: scale one row of predictions so it sums to 1 —
`y_pred /= tf.reduce_sum(y_pred, last_axis, True)`. -/
noncomputable def renormRow (row : List ℝ) : List ℝ :=
  row.map fun v => v / row.sum

/-- Line 72: clip one row of predictions into `[epsilon, 1 - epsilon]`. -/
noncomputable def clipRow (row : List ℝ) : List ℝ :=
  row.map fun v => clip_by_value v epsilon (1 - epsilon)

/-- Line 73 for one row: `-tf.reduce_sum(y_true * tf.log(y_pred), last_axis)`. -/
noncomputable def crossentropyRow (t p : List ℝ) : ℝ :=
  -(((t.zip p).map fun q => q.1 * Real.log q.2).sum)

/-- `categorical_cross_entropy` (classification.py lines 49-78).  The
probability branch masks `y_true`, renormalizes, clips and reduces
(lines 65-73); the logit branch delegates to the softmax primitive
(lines 74-78). -/
noncomputable def categorical_cross_entropy
    (y_true y_pred : List (List ℝ)) (from_logits : Bool) : List ℝ :=
  if from_logits then
    (y_true.zip y_pred).map fun r => softmax_cross_entropy_with_logits r.1 r.2
  else
    let y_true2 := y_true.map (List.map magic_mask_elem)
    let y_pred2 := (y_pred.map renormRow).map clipRow
    (y_true2.zip y_pred2).map fun r => crossentropyRow r.1 r.2

/-- `tf.reduce_mean(·, axis=-1)` on a rank-2 tensor: the mean of each row. -/
noncomputable def meanLastAxis (m : List (List ℝ)) : List ℝ :=
  m.map fun row => row.sum / (row.length : ℝ)

/-- `binary_cross_entropy` (classification.py lines 81-107).  With
`from_logits=False` the labels are sentinel-masked and the predictions are
clipped and mapped through `log(p / (1 - p))` (lines 99-105); either way the
result is the row-mean of the masked sigmoid cross-entropy (line 107). -/
noncomputable def binary_cross_entropy
    (y_true y_pred : List (List ℝ)) (from_logits : Bool) :
    Except String (List ℝ) :=
  let y_true2 :=
    if from_logits then y_true else y_true.map (List.map magic_mask_elem)
  let y_pred2 :=
    if from_logits then y_pred else
      y_pred.map (List.map fun v =>
        Real.log (clip_by_value v epsilon (1 - epsilon)
          / (1 - clip_by_value v epsilon (1 - epsilon))))
  (astronn_sigmoid_cross_entropy_with_logits y_true2 y_pred2).map meanLastAxis

/-- `tf.shape(y_pred)[1]` for a (rectangular) rank-2 tensor: the length of a
row.  In `bayesian_crossentropy` (line 128) this is the *full* width of
`y_pred`, i.e. the number of classes *plus one* for the appended variance
column. -/
def numCols (m : List (List ℝ)) : ℕ :=
  match m with
  | [] => 0
  | r :: _ => r.length

/-- Line 132: `pred = y_pred[:, 0:num_classes]` with
`num_classes = tf.shape(y_pred)[1]`.  Since the slice bound is the full
width, this keeps every column of `y_pred`. -/
def bayesian_pred (y_pred : List (List ℝ)) : List (List ℝ) :=
  y_pred.map fun row => row.take (numCols y_pred)

/-- Line 130: `variance = y_pred[:, num_classes]` with
`num_classes = tf.shape(y_pred)[1]`.  The integer index equals the width of
every row, so the strided slice is out of range for every input; the
resulting runtime `InvalidArgumentError` is modelled as `none`. -/
def bayesian_variance (y_pred : List (List ℝ)) : Option (List ℝ) :=
  y_pred.mapM fun row => row.get? (numCols y_pred)

/-- Model of the attribute lookup `dist.sample(num_classes)` in
`gaussian_crossentropy` (line 158): the `dist` that
`bayesian_crossentropy` passes is the plain `tf.Tensor` returned by
`tf.random_normal` (line 135), and a `tf.Tensor` has no `sample` method, so
graph tracing raises `AttributeError` — modelled as `none`.  (The module
imports `tensorflow.contrib.distributions` without using it, which suggests
a `distributions.Normal` object was intended instead.) -/
def tensor_sample (dist : List (List ℝ)) (n : ℕ) : Option (List (List ℝ)) :=
  none

/-- `tf.nn.elu`: `x` for `x > 0`, else `exp x - 1`. -/
noncomputable def elu (x : ℝ) : ℝ :=
  if 0 < x then x else Real.exp x - 1

/-- `gaussian_crossentropy` (classification.py lines 147-163): returns the
`map_fn` body used for each of the Monte-Carlo iterations.  Every call of
the body attempts `dist.sample(num_classes)`, which fails (see
`tensor_sample`); had it succeeded, the body would transpose the sample,
add it to `pred`, compute the distorted categorical cross-entropy with
logits, and return `-elu(undistorted_loss - distorted_loss)`. -/
noncomputable def gaussian_crossentropy (true_ pred dist : List (List ℝ))
    (undistorted_loss : List ℝ) (num_classes : ℕ) : ℕ → Option (List ℝ) :=
  fun _i =>
    (tensor_sample dist num_classes).map fun s =>
      let std_samples := s.transpose
      let distorted_loss :=
        categorical_cross_entropy
          (List.zipWith (List.zipWith (· + ·)) pred std_samples) true_ true
      List.zipWith (fun u d => -elu (u - d)) undistorted_loss distorted_loss

/-- `tf.reduce_mean(·, axis=0)` on a rank-2 tensor: the mean down each
column. -/
noncomputable def meanAxis0 (m : List (List ℝ)) : List ℝ :=
  m.transpose.map fun col => col.sum / (col.length : ℝ)

/-- The closure returned by `bayesian_crossentropy_wrapper`
(classification.py lines 110-144), with the random tensor that
`tf.random_normal` produces on line 135 passed in as `norm_dist`.  The
steps follow the source in order: `num_classes = tf.shape(y_pred)[1]`,
`std = sqrt(y_pred)` over the whole tensor, the variance column slice, the
depressor `exp(variance) - 1`, `pred = y_pred[:, 0:num_classes]`,
`undistorted_loss = categorical_cross_entropy(pred, y_true, from_logits)`
(note `pred` bound to the first parameter), `T = 25` Monte-Carlo
iterations, `variance_loss = mean(results, axis=0) * undistorted_loss`, and
finally `variance_loss + undistorted_loss + variance_depressor`.  The
`Option` result is `none` because the variance slice is out of range and
because every Monte-Carlo iteration fails on `dist.sample` (see
`bayesian_variance`, `tensor_sample`). -/
noncomputable def bayesian_crossentropy (from_logits : Bool)
    (y_true y_pred norm_dist : List (List ℝ)) : Option (List ℝ) := do
  let num_classes := numCols y_pred
  let _std := y_pred.map (List.map Real.sqrt)
  let variance ← bayesian_variance y_pred
  let variance_depressor := variance.map fun v => Real.exp v - 1
  let pred := bayesian_pred y_pred
  let undistorted_loss := categorical_cross_entropy pred y_true from_logits
  let monte_carlo_results ← (List.range 25).mapM
    (gaussian_crossentropy y_true pred norm_dist undistorted_loss num_classes)
  let variance_loss :=
    List.zipWith (· * ·) (meanAxis0 monte_carlo_results) undistorted_loss
  pure (List.zipWith (· + ·)
    (List.zipWith (· + ·) variance_loss undistorted_loss) variance_depressor)

/-- Probability-mode categorical cross-entropy exactly as spec §4.2 words it,
for the refinement claim: (a) zero out `y_true` wherever it equals the
sentinel; (b) renormalize `y_pred` along the last axis so each row of class
probabilities sums to 1; (c) clip `y_pred` into `[eps, 1-eps]`; (d) compute
`-sum(y_true * log(y_pred))` along the last axis. -/
noncomputable def categorical_cross_entropy_prob_spec
    (y_true y_pred : List (List ℝ)) : List ℝ :=
  let t := y_true.map (List.map fun v => if v = MAGIC_NUMBER then (0 : ℝ) else v)
  let p1 := y_pred.map fun row => row.map fun v => v / row.sum
  let p2 := p1.map fun row => row.map fun v => min (max v epsilon) (1 - epsilon)
  (t.zip p2).map fun r => -(((r.1.zip r.2).map fun q => q.1 * Real.log q.2).sum)

/-! ## Helper lemmas -/

lemma get?_zip_map {α β γ : Type} (g : α × β → γ) :
    ∀ (l1 : List α) (l2 : List β) (i : ℕ),
      ((l1.zip l2).map g).get? i
        = (l1.get? i).bind fun a => (l2.get? i).map fun b => g (a, b) := by
  intro l1
  induction l1 with
  | nil => intro l2 i; simp
  | cons a l ih =>
    intro l2 i
    cases l2 with
    | nil => simp
    | cons b l2 =>
      cases i with
      | zero => simp
      | succ n => simpa using ih l2 n

lemma entry?_zip_map (f : ℝ → ℝ → ℝ) (m1 m2 : List (List ℝ)) (i j : ℕ) :
    entry? ((m1.zip m2).map fun r => (r.1.zip r.2).map fun p => f p.1 p.2) i j
      = (entry? m1 i j).bind fun a => (entry? m2 i j).map fun b => f a b := by
  unfold entry?
  rw [get?_zip_map (fun r => (r.1.zip r.2).map fun p => f p.1 p.2) m1 m2 i]
  cases h1 : m1.get? i with
  | none => simp
  | some r1 =>
    cases h2 : m2.get? i with
    | none => simp
    | some r2 =>
      simp only [Option.some_bind, Option.map_some']
      exact get?_zip_map (fun p => f p.1 p.2) r1 r2 j

lemma sigmoid_ok_iff (labels logits res : List (List ℝ)) :
    astronn_sigmoid_cross_entropy_with_logits labels logits = Except.ok res ↔
      tShape labels = tShape logits ∧
        res = (labels.zip logits).map fun rows =>
          (rows.1.zip rows.2).map fun p => logistic_loss_elem p.1 p.2 := by
  unfold astronn_sigmoid_cross_entropy_with_logits
  split
  · rename_i h
    simp only [Except.ok.injEq]
    exact ⟨fun he => ⟨h, he.symm⟩, fun he => he.2.symm⟩
  · rename_i h
    simp [h]

lemma tShape_eq_iff (m1 m2 : List (List ℝ)) :
    tShape m1 = tShape m2 ↔ m1.map List.length = m2.map List.length := by
  constructor
  · intro h
    simp only [tShape, List.cons.injEq] at h
    exact h.2
  · intro h
    have hl : m1.length = m2.length := by
      simpa using congrArg List.length h
    simp [tShape, hl, h]

lemma logistic_loss_elem_eq (y x : ℝ) :
    logistic_loss_elem y x
      = Real.log (1 + Real.exp (-|x|)) + max x 0 - x * y := by
  simp only [logistic_loss_elem]
  rcases le_or_lt 0 x with hx | hx
  · rw [if_pos hx, if_pos hx, abs_of_nonneg hx, max_eq_left hx]
    ring
  · rw [if_neg (not_le.mpr hx), if_neg (not_le.mpr hx), abs_of_neg hx,
      max_eq_right hx.le, neg_neg]
    ring

/-- Since the sentinel mask of lines 43-44 is dead, the only way the label
enters the elementwise loss is through the linear term `- logits * labels`. -/
lemma logistic_loss_elem_label_diff (t1 t2 x : ℝ) :
    logistic_loss_elem t1 x - logistic_loss_elem t2 x = x * (t2 - t1) := by
  simp only [logistic_loss_elem]
  ring

lemma map_length_zip_map (f : ℝ → ℝ → ℝ) :
    ∀ (m1 m2 : List (List ℝ)), m1.map List.length = m2.map List.length →
      ((m1.zip m2).map fun r => (r.1.zip r.2).map fun p => f p.1 p.2).map
          List.length
        = m2.map List.length := by
  intro m1
  induction m1 with
  | nil =>
    intro m2 h
    cases m2 with
    | nil => simp
    | cons r2 t2 => simp at h
  | cons r1 t1 ih =>
    intro m2 h
    cases m2 with
    | nil => simp at h
    | cons r2 t2 =>
      simp only [List.map_cons, List.cons.injEq] at h
      simp [List.zip_cons_cons, List.length_zip, h.1, ih t2 h.2]

/-! ## Claim theorems -/

/-- Claim C1 (evidence for the code bug): the sigmoid cross-entropy's
missing-label mask of lines 43-44 is dead — `labels == MAGIC_NUMBER` is
Python reference equality on a TF 1.x Tensor, so `tf.where` receives the
scalar `False` and returns the raw loss whole.  On the claim's own scenario
`labels = [[1,0],[S,S]], logits = [[2,-1],[5,5]]` each sentinel-row element
is the raw loss `5 - 5·S + log(1 + e^{-5})` (about 50000.007), which is
nonzero — not the `[0, 0]` the claim requires.  The probability-mode
categorical cross-entropy, whose mask uses `tf.equal` (line 67), does
contribute exactly 0 at sentinel labels, as the last conjunct records. -/
theorem sigmoid_sentinel_positions_get_raw_loss :
    astronn_sigmoid_cross_entropy_with_logits
        [[1, 0], [MAGIC_NUMBER, MAGIC_NUMBER]] [[2, -1], [5, 5]]
      = Except.ok [[logistic_loss_elem 1 2, logistic_loss_elem 0 (-1)],
          [logistic_loss_elem MAGIC_NUMBER 5, logistic_loss_elem MAGIC_NUMBER 5]]
    ∧ logistic_loss_elem MAGIC_NUMBER 5
        = 5 - 5 * MAGIC_NUMBER + Real.log (1 + Real.exp (-5))
    ∧ logistic_loss_elem MAGIC_NUMBER 5 ≠ 0
    ∧ (∀ p : ℝ, magic_mask_elem MAGIC_NUMBER * Real.log p = 0) := by
  have hval : logistic_loss_elem MAGIC_NUMBER 5
      = 5 - 5 * MAGIC_NUMBER + Real.log (1 + Real.exp (-5)) := by
    simp only [logistic_loss_elem]
    rw [if_pos (by norm_num : (5 : ℝ) ≥ 0), if_pos (by norm_num : (5 : ℝ) ≥ 0)]
  refine ⟨(sigmoid_ok_iff _ _ _).mpr ⟨rfl, rfl⟩, hval, ?_, ?_⟩
  · rw [hval]
    have hexp : (0 : ℝ) < Real.exp (-5) := Real.exp_pos _
    have hlog : (0 : ℝ) < Real.log (1 + Real.exp (-5)) :=
      Real.log_pos (by linarith)
    have hlin : (5 : ℝ) - 5 * MAGIC_NUMBER = 50000 := by
      norm_num [MAGIC_NUMBER]
    refine ne_of_gt ?_
    linarith
  · intro p
    simp [magic_mask_elem]

/-- Claim C2: whenever the shape merge succeeds, the masked sigmoid
cross-entropy has the shape of `logits`, and at every position whose label
`y` is not the sentinel its value is exactly
`log(1 + exp(-|x|)) + max(x, 0) - x*y` — the mathematically exact stable
logistic loss, for every real logit `x` (so in particular throughout
`[-50, 50]`). -/
theorem sigmoid_cross_entropy_stable_formula
    (labels logits res : List (List ℝ))
    (hok : astronn_sigmoid_cross_entropy_with_logits labels logits
      = Except.ok res) :
    tShape res = tShape logits
    ∧ ∀ i j x y, entry? logits i j = some x → entry? labels i j = some y →
        y ≠ MAGIC_NUMBER →
        entry? res i j
          = some (Real.log (1 + Real.exp (-|x|)) + max x 0 - x * y) := by
  obtain ⟨hsh, hres⟩ := (sigmoid_ok_iff labels logits res).mp hok
  subst hres
  constructor
  · exact (tShape_eq_iff _ _).mpr
      (map_length_zip_map logistic_loss_elem labels logits
        ((tShape_eq_iff labels logits).mp hsh))
  · intro i j x y hx hy hymagic
    rw [entry?_zip_map, hy, hx, Option.some_bind, Option.map_some',
      logistic_loss_elem_eq y x]

/-- Witness for C2 at `labels = [[0]]`, `logits = [[2]]`. -/
theorem sigmoid_cross_entropy_stable_formula_witness :
    tShape [[logistic_loss_elem 0 2]] = tShape [[(2 : ℝ)]]
    ∧ ∀ i j x y, entry? [[(2 : ℝ)]] i j = some x →
        entry? [[(0 : ℝ)]] i j = some y → y ≠ MAGIC_NUMBER →
        entry? [[logistic_loss_elem 0 2]] i j
          = some (Real.log (1 + Real.exp (-|x|)) + max x 0 - x * y) :=
  sigmoid_cross_entropy_stable_formula [[0]] [[2]] [[logistic_loss_elem 0 2]]
    ((sigmoid_ok_iff _ _ _).mpr ⟨rfl, rfl⟩)

/-- Claim C5: with `from_logits = False`, `categorical_cross_entropy` returns
the result of exactly the spec's four steps in order — (a) sentinel entries
of `y_true` replaced by 0, (b) `y_pred` divided by its sum along the last
axis unconditionally, (c) `y_pred` clipped into `[eps, 1-eps]` with `eps`
the backend epsilon, (d) `-sum(y_true * log(y_pred))` reduced over the last
axis — yielding one scalar per input row (rank one less than the input). -/
theorem categorical_prob_mode_refines_spec (y_true y_pred : List (List ℝ)) :
    categorical_cross_entropy y_true y_pred false
      = categorical_cross_entropy_prob_spec y_true y_pred
    ∧ (categorical_cross_entropy y_true y_pred false).length
        = min y_true.length y_pred.length := by
  refine ⟨rfl, ?_⟩
  simp [categorical_cross_entropy]

/-- Claim C9 (evidence for the code bug): a shape mismatch is reported at
graph construction, before any loss arithmetic, but the Python format string
`"... ({0!s} vs {0!s})"` renders the logits shape twice, so the error carries
no information about the labels shape: two calls whose labels have different
shapes raise the identical message, which mentions only the logits shape. -/
theorem shape_mismatch_message_ignores_labels_shape :
    astronn_sigmoid_cross_entropy_with_logits [[1, 2, 3]] [[1, 2], [3, 4]]
      = astronn_sigmoid_cross_entropy_with_logits [[1], [2], [3]] [[1, 2], [3, 4]]
    ∧ astronn_sigmoid_cross_entropy_with_logits [[1, 2, 3]] [[1, 2], [3, 4]]
      = Except.error ("logits and labels must have the same shape ("
          ++ toString (tShape [[(1 : ℝ), 2], [3, 4]]) ++ " vs "
          ++ toString (tShape [[(1 : ℝ), 2], [3, 4]]) ++ ")")
    ∧ tShape [[(1 : ℝ), 2, 3]] ≠ tShape [[(1 : ℝ)], [2], [3]] := by
  exact ⟨rfl, rfl, by decide⟩

/-- Claim C4 (evidence for the code bug): inside the Bayesian loss the
variable `num_classes` is bound to `tf.shape(y_pred)[1]`, the *full* width
of `y_pred` (classes plus variance column).  Hence for a width-3 `y_pred`
(two classes plus variance) `pred = y_pred[:, 0:num_classes]` keeps all
three columns instead of the first two, and
`variance = y_pred[:, num_classes]` indexes column 3 of a width-3 tensor —
out of range for every row. -/
theorem bayesian_split_uses_full_width :
    bayesian_pred [[(4 : ℝ), 1, 1 / 4]] = [[(4 : ℝ), 1, 1 / 4]]
    ∧ bayesian_pred [[(4 : ℝ), 1, 1 / 4]] ≠ [[(4 : ℝ), 1]]
    ∧ bayesian_variance [[(4 : ℝ), 1, 1 / 4]] = none := by
  refine ⟨rfl, ?_, rfl⟩
  intro h
  have hlen := congrArg (List.map List.length) h
  simp [bayesian_pred, numCols] at hlen

/-- Claim C3 (evidence for the code bug): the Monte-Carlo loop never runs.
Each `map_fn` body calls `dist.sample(num_classes)` on the plain Tensor
returned by `tf.random_normal`, which has no `sample` method, and the
variance slice `y_pred[:, num_classes]` is out of range, so the Bayesian
loss never produces a value for any input. -/
theorem bayesian_crossentropy_never_yields_a_loss :
    gaussian_crossentropy [[1, 0]] [[4, 1]] [[0, 0]] [0] 2 0 = none
    ∧ bayesian_crossentropy true [[1, 0]] [[(4 : ℝ), 1, 1 / 4]] [[0, 0, 0]] = none := by
  exact ⟨rfl, rfl⟩

lemma sum_map_mul_left (k : ℝ) (l : List ℝ) :
    (l.map fun v => k * v).sum = k * l.sum := by
  induction l with
  | nil => simp
  | cons a t ih => simp [ih, mul_add]

lemma renormRow_scale (k : ℝ) (hk : k ≠ 0) (row : List ℝ) :
    renormRow (row.map fun v => k * v) = renormRow row := by
  unfold renormRow
  rw [List.map_map, sum_map_mul_left]
  have hfn : ((fun v => v / (k * row.sum)) ∘ fun v => k * v)
      = fun v => v / row.sum :=
    funext fun v => mul_div_mul_left v row.sum hk
  rw [hfn]

/-- Claim C6: probability-mode categorical cross-entropy is invariant under
rescaling the predictions by any positive constant `k`, because the internal
renormalization divides each row by its own sum. -/
theorem categorical_prob_mode_scale_invariant
    (y_true y_pred : List (List ℝ)) (k : ℝ) (hk : 0 < k) :
    categorical_cross_entropy y_true
        (y_pred.map (List.map fun v => k * v)) false
      = categorical_cross_entropy y_true y_pred false := by
  have hre : (y_pred.map (List.map fun v => k * v)).map renormRow
      = y_pred.map renormRow := by
    rw [List.map_map]
    have hfn : (renormRow ∘ List.map fun v => k * v) = renormRow :=
      funext fun row => renormRow_scale k hk.ne' row
    rw [hfn]
  simp only [categorical_cross_entropy, hre, Bool.false_eq_true, if_false]

/-- Witness for C6 at `y_true = [[1]]`, `y_pred = [[1]]`, `k = 2`. -/
theorem categorical_prob_mode_scale_invariant_witness :
    categorical_cross_entropy [[1]]
        ([[(1 : ℝ)]].map (List.map fun v => 2 * v)) false
      = categorical_cross_entropy [[(1 : ℝ)]] [[(1 : ℝ)]] false :=
  categorical_prob_mode_scale_invariant [[1]] [[1]] 2 two_pos

/-- Claim C7: with `from_logits = True`, `categorical_cross_entropy` is the
direct softmax-cross-entropy-with-logits computation on
`(labels = y_true, logits = y_pred)` row by row, and the row of labels `t`
it hands to the primitive is `y_true`'s row unchanged — no sentinel masking
is applied in this branch. -/
theorem categorical_logit_mode_delegates_unmasked
    (y_true y_pred : List (List ℝ)) (i : ℕ) (t p : List ℝ)
    (ht : y_true.get? i = some t) (hp : y_pred.get? i = some p) :
    (categorical_cross_entropy y_true y_pred true).get? i
      = some (softmax_cross_entropy_with_logits t p)
    ∧ softmax_cross_entropy_with_logits t p
      = -(((t.zip p).map fun q =>
          q.1 * (q.2 - Real.log ((p.map Real.exp).sum))).sum) := by
  constructor
  · show ((y_true.zip y_pred).map fun r =>
        softmax_cross_entropy_with_logits r.1 r.2).get? i = _
    rw [get?_zip_map (fun r => softmax_cross_entropy_with_logits r.1 r.2)
      y_true y_pred i, ht, hp, Option.some_bind, Option.map_some']
  · rfl

/-- Witness for C7 at `y_true = [[SENTINEL]]`, `y_pred = [[0]]`: the
sentinel label reaches the primitive unmasked. -/
theorem categorical_logit_mode_delegates_unmasked_witness :
    (categorical_cross_entropy [[MAGIC_NUMBER]] [[0]] true).get? 0
      = some (softmax_cross_entropy_with_logits [MAGIC_NUMBER] [0])
    ∧ softmax_cross_entropy_with_logits [MAGIC_NUMBER] [(0 : ℝ)]
      = -((([MAGIC_NUMBER].zip [(0 : ℝ)]).map fun q =>
          q.1 * (q.2 - Real.log (([(0 : ℝ)].map Real.exp).sum))).sum) :=
  categorical_logit_mode_delegates_unmasked [[MAGIC_NUMBER]] [[0]] 0
    [MAGIC_NUMBER] [0] rfl rfl

/-- Claim C10: in probability mode, every value handed to the logarithm —
an entry of the renormalized-then-clipped prediction tensor — lies in
`[epsilon, 1 - epsilon]`, so the logarithm is never taken at zero.  (The
positivity of the row sums is the claim's premise; in exact real arithmetic
the clip alone already enforces the bounds.) -/
theorem prob_mode_log_argument_stays_clipped
    (y_pred : List (List ℝ)) (hsum : ∀ row ∈ y_pred, 0 < row.sum)
    (i j : ℕ) (x : ℝ)
    (hx : entry? ((y_pred.map renormRow).map clipRow) i j = some x) :
    epsilon ≤ x ∧ x ≤ 1 - epsilon := by
  unfold entry? at hx
  rw [List.get?_map, List.get?_map] at hx
  cases hrow : y_pred.get? i with
  | none => rw [hrow] at hx; simp at hx
  | some row =>
    rw [hrow] at hx
    simp only [Option.map_some', Option.some_bind] at hx
    unfold clipRow at hx
    rw [List.get?_map] at hx
    cases hv : (renormRow row).get? j with
    | none => rw [hv] at hx; simp at hx
    | some v =>
      rw [hv, Option.map_some'] at hx
      obtain rfl : clip_by_value v epsilon (1 - epsilon) = x :=
        Option.some.inj hx
      have he : epsilon ≤ 1 - epsilon := by norm_num [epsilon]
      exact ⟨le_min (le_max_right _ _) he, min_le_right _ _⟩

/-- Witness for C10 at `y_pred = [[1]]`. -/
theorem prob_mode_log_argument_stays_clipped_witness :
    epsilon ≤ clip_by_value ((1 : ℝ) / List.sum [(1 : ℝ)]) epsilon (1 - epsilon)
    ∧ clip_by_value ((1 : ℝ) / List.sum [(1 : ℝ)]) epsilon (1 - epsilon)
        ≤ 1 - epsilon :=
  prob_mode_log_argument_stays_clipped [[1]]
    (by intro row hr; rw [List.mem_singleton] at hr; subst hr; norm_num)
    0 0 _ rfl

lemma magic_mask_id (m : List (List ℝ))
    (h : ∀ row ∈ m, ∀ v ∈ row, v ≠ MAGIC_NUMBER) :
    m.map (List.map magic_mask_elem) = m := by
  have h2 : ∀ row ∈ m, List.map magic_mask_elem row = id row := by
    intro row hr
    show List.map magic_mask_elem row = row
    have h3 : ∀ v ∈ row, magic_mask_elem v = id v := by
      intro v hv
      simp [magic_mask_elem, h row hr v hv]
    rw [List.map_congr_left h3, List.map_id]
  rw [List.map_congr_left h2, List.map_id]

lemma clip_id (v : ℝ) (h1 : epsilon ≤ v) (h2 : v ≤ 1 - epsilon) :
    clip_by_value v epsilon (1 - epsilon) = v := by
  unfold clip_by_value
  rw [max_eq_left h1, min_eq_left h2]

/-- Counterexample for C8 as stated: with a sentinel label the two modes of
`binary_cross_entropy` disagree at `p = 1/4`.  The `from_logits=False` path
replaces the sentinel label by 0 via `tf.equal` (line 101) before
converting to logits, so the label term `-x·labels` of the sigmoid
cross-entropy vanishes; the `from_logits=True` path hands the sentinel
straight to the sigmoid cross-entropy, whose own mask is dead (lines
43-44), so its loss keeps the term `-x·SENTINEL` with
`x = log(1/3) ≠ 0`, and the two row means differ by `9999·log(1/3)`. -/
theorem binary_mode_equivalence_fails_at_sentinel :
    binary_cross_entropy [[MAGIC_NUMBER]] [[1 / 4]] false
      ≠ binary_cross_entropy [[MAGIC_NUMBER]]
          [[Real.log ((1 / 4) / (1 - 1 / 4))]] true := by
  intro h
  have hmaskM : magic_mask_elem MAGIC_NUMBER = 0 := by
    simp [magic_mask_elem]
  have hclip : clip_by_value ((1 : ℝ) / 4) epsilon (1 - epsilon) = 1 / 4 :=
    clip_id ((1 : ℝ) / 4) (by norm_num [epsilon]) (by norm_num [epsilon])
  have hL : binary_cross_entropy [[MAGIC_NUMBER]] [[1 / 4]] false
      = Except.ok (meanLastAxis
          [[logistic_loss_elem 0 (Real.log ((1 / 4) / (1 - 1 / 4)))]]) := by
    show (astronn_sigmoid_cross_entropy_with_logits
        [[magic_mask_elem MAGIC_NUMBER]]
        [[Real.log (clip_by_value ((1 : ℝ) / 4) epsilon (1 - epsilon)
          / (1 - clip_by_value ((1 : ℝ) / 4) epsilon (1 - epsilon)))]]).map
        meanLastAxis = _
    rw [hmaskM, hclip,
      (sigmoid_ok_iff [[(0 : ℝ)]] [[Real.log ((1 / 4 : ℝ) / (1 - 1 / 4))]]
        [[logistic_loss_elem 0
          (Real.log ((1 / 4 : ℝ) / (1 - 1 / 4)))]]).mpr ⟨rfl, rfl⟩]
    rfl
  have hR : binary_cross_entropy [[MAGIC_NUMBER]]
      [[Real.log ((1 / 4) / (1 - 1 / 4))]] true
      = Except.ok (meanLastAxis
          [[logistic_loss_elem MAGIC_NUMBER
            (Real.log ((1 / 4) / (1 - 1 / 4)))]]) := by
    show (astronn_sigmoid_cross_entropy_with_logits [[MAGIC_NUMBER]]
        [[Real.log ((1 / 4) / (1 - 1 / 4))]]).map meanLastAxis = _
    rw [(sigmoid_ok_iff [[MAGIC_NUMBER]]
        [[Real.log ((1 / 4) / (1 - 1 / 4))]]
        [[logistic_loss_elem MAGIC_NUMBER
          (Real.log ((1 / 4) / (1 - 1 / 4)))]]).mpr ⟨rfl, rfl⟩]
    rfl
  rw [hL, hR] at h
  have heq : logistic_loss_elem 0 (Real.log ((1 / 4) / (1 - 1 / 4)))
      = logistic_loss_elem MAGIC_NUMBER
          (Real.log ((1 / 4) / (1 - 1 / 4))) := by
    simpa [meanLastAxis] using h
  have hdiff := logistic_loss_elem_label_diff 0 MAGIC_NUMBER
    (Real.log ((1 / 4) / (1 - 1 / 4)))
  rw [heq, sub_self] at hdiff
  have hx : Real.log ((1 / 4 : ℝ) / (1 - 1 / 4)) < 0 :=
    Real.log_neg (by norm_num) (by norm_num)
  have hM : (MAGIC_NUMBER - 0 : ℝ) < 0 := by norm_num [MAGIC_NUMBER]
  have hpos : 0 < Real.log ((1 / 4 : ℝ) / (1 - 1 / 4)) * (MAGIC_NUMBER - 0) :=
    mul_pos_of_neg_of_neg hx hM
  rw [← hdiff] at hpos
  exact lt_irrefl 0 hpos

/-- Claim C8 (amended): for `y_true` containing no sentinel entries and `p`
with entries inside the clip range `[epsilon, 1 - epsilon]` (away from
`{0, 1}`), `binary_cross_entropy` in probability mode equals logit mode fed
`log(p / (1 - p))`; and in logit mode the result is the mean over the last
axis of the masked sigmoid cross-entropy, one scalar per row. -/
theorem binary_mode_equivalence_without_sentinels
    (y_true p : List (List ℝ))
    (hsent : ∀ row ∈ y_true, ∀ v ∈ row, v ≠ MAGIC_NUMBER)
    (hrange : ∀ row ∈ p, ∀ v ∈ row, epsilon ≤ v ∧ v ≤ 1 - epsilon) :
    binary_cross_entropy y_true p false
      = binary_cross_entropy y_true
          (p.map (List.map fun v => Real.log (v / (1 - v)))) true
    ∧ binary_cross_entropy y_true
          (p.map (List.map fun v => Real.log (v / (1 - v)))) true
      = (astronn_sigmoid_cross_entropy_with_logits y_true
          (p.map (List.map fun v => Real.log (v / (1 - v))))).map
          meanLastAxis := by
  have hmask := magic_mask_id y_true hsent
  have hclip : p.map (List.map fun v =>
      Real.log (clip_by_value v epsilon (1 - epsilon)
        / (1 - clip_by_value v epsilon (1 - epsilon))))
      = p.map (List.map fun v => Real.log (v / (1 - v))) := by
    apply List.map_congr_left
    intro row hr
    apply List.map_congr_left
    intro v hv
    rw [clip_id v (hrange row hr v hv).1 (hrange row hr v hv).2]
  refine ⟨?_, rfl⟩
  show (astronn_sigmoid_cross_entropy_with_logits
      (y_true.map (List.map magic_mask_elem))
      (p.map (List.map fun v =>
        Real.log (clip_by_value v epsilon (1 - epsilon)
          / (1 - clip_by_value v epsilon (1 - epsilon)))))).map meanLastAxis
    = binary_cross_entropy y_true
        (p.map (List.map fun v => Real.log (v / (1 - v)))) true
  rw [hmask, hclip]
  rfl

/-- Witness for the amended C8 at `y_true = [[1]]`, `p = [[1/2]]`. -/
theorem binary_mode_equivalence_without_sentinels_witness :
    binary_cross_entropy [[1]] [[(1 : ℝ) / 2]] false
      = binary_cross_entropy [[1]]
          ([[(1 : ℝ) / 2]].map (List.map fun v => Real.log (v / (1 - v)))) true
    ∧ binary_cross_entropy [[1]]
          ([[(1 : ℝ) / 2]].map (List.map fun v => Real.log (v / (1 - v)))) true
      = (astronn_sigmoid_cross_entropy_with_logits [[1]]
          ([[(1 : ℝ) / 2]].map (List.map fun v => Real.log (v / (1 - v))))).map
          meanLastAxis :=
  binary_mode_equivalence_without_sentinels [[1]] [[1 / 2]]
    (by
      intro row hr v hv
      rw [List.mem_singleton] at hr
      subst hr
      rw [List.mem_singleton] at hv
      subst hv
      norm_num [MAGIC_NUMBER])
    (by
      intro row hr v hv
      rw [List.mem_singleton] at hr
      subst hr
      rw [List.mem_singleton] at hv
      subst hv
      norm_num [epsilon])

end AstroNN
